import Mathlib

/-!
# pdf-extractor: extraction-and-assembly pipeline

A shallow embedding of the Go sources `ai.go`, `extractor.go`, `markdown.go`,
`constants.go` and `types.go`, followed by theorems about the embedded
functions.

Conventions of the embedding:

* a Go `string` is a Lean `String` (a sequence of Unicode code points);
* a Go `int` is a Lean `Int`; the page loop counts with `Nat` and casts;
* a Go `error` is an `Option String` and a Go result `(v, err)` is the pair
  of both; a library call that returns a pointer or an error is an `Except`;
* everything the pipeline obtains from outside (the fitz document, the file
  system, the vision service, `encoding/json`, `path/filepath`) is a field of
  the `Document` and `World` records, so every theorem quantifies over it.
-/

namespace PdfExtractor

/-! ## The Go standard library functions used by the sources -/

/-- Go `strings.HasPrefix`. -/
def HasPrefix (s p : String) : Bool :=
  p.data.isPrefixOf s.data

/-- Go `strings.TrimPrefix`: `s` without the leading `p`, or `s` itself. -/
def TrimPrefix (s p : String) : String :=
  if HasPrefix s p then ⟨s.data.drop p.data.length⟩ else s

/-- Go `strings.HasSuffix`. -/
def HasSuffix (s x : String) : Bool :=
  x.data.isSuffixOf s.data

/-- Go `strings.TrimSuffix`: `s` without the trailing `x`, or `s` itself. -/
def TrimSuffix (s x : String) : String :=
  if HasSuffix s x then ⟨s.data.take (s.data.length - x.data.length)⟩ else s

/-- Go `unicode.IsSpace`: the code points with the Unicode White_Space property. -/
def isSpace (c : Char) : Bool :=
  let n := c.toNat
  n == 0x09 || n == 0x0A || n == 0x0B || n == 0x0C || n == 0x0D || n == 0x20 ||
  n == 0x85 || n == 0xA0 || n == 0x1680 || (0x2000 ≤ n && n ≤ 0x200A) ||
  n == 0x2028 || n == 0x2029 || n == 0x202F || n == 0x205F || n == 0x3000

/-- Go `strings.TrimSpace`: drop the leading, then the trailing white space. -/
def TrimSpace (s : String) : String :=
  ⟨((s.data.dropWhile isSpace).reverse.dropWhile isSpace).reverse⟩

/-- Go `fmt.Sprintf("%d", n)` for an `int`. -/
def fmtInt (n : Int) : String :=
  toString n

/-! ## constants.go -/

def msgAnalysisUnavailable : String := "Image analysis unavailable"
def msgAnalysisSkipped : String := "AI analysis skipped"
def msgTypeUnknown : String := "unknown"
def msgTypeImage : String := "image"

/-! ## types.go -/

/-- The record `ImageAnalysis` of types.go (`Type_` is the Go field `Type`). -/
structure ImageAnalysis where
  ImagePath : String
  PageNumber : Int
  ImageNumber : Int
  Description : String
  Type_ : String
  Caption : String
  deriving DecidableEq, Repr

/-- The record `aiResponse` of ai.go: the target of `json.Unmarshal`. -/
structure aiResponse where
  Description : String
  Type_ : String
  Caption : String
  deriving DecidableEq, Repr

/-! ## The outside world

Go values of type `error` are `Option String` (`none` is `nil`); a Go result
`(v, err)` is the pair of both, as in the sources. -/

/-- Go `error`: `none` is `nil`, `some msg` is an error with message `msg`. -/
abbrev error := Option String

/-- Go `fmt.Errorf(msg ++ "%w", err)`: the message of the wrapping error. -/
def wrapError (msg : String) (err : String) : String :=
  msg ++ err

/-- The `*fitz.Document` as the pipeline uses it: `NumPage`, `Text`, `Image`.
`Image` returns a possibly nil image together with a possibly nil error. -/
structure Document (Img : Type) where
  NumPage : Nat
  Text : Nat → String × error
  Image : Nat → Option Img × error

/-- One candidate of a `genai.GenerateContentResponse`: its `Content` may be
nil, otherwise it is the list of the `Text` fields of its `Parts`. -/
structure Candidate where
  Content : Option (List String)
  deriving DecidableEq, Repr

/-- The library and system calls made by the pipeline.

* `Join` is `filepath.Join`;
* `Create` is `os.Create` (its error; the file is closed on return);
* `Encode` is `png.Encode` into the file created at the given path;
* `NewClient` is `genai.NewClient` for a project and a region: a client or
  an error;
* `ReadFile` is `os.ReadFile`;
* `GenerateContent` is `client.Models.GenerateContent` for a client, a model,
  the prompt and the image bytes; it returns the response's candidates;
* `Unmarshal` is `json.Unmarshal` into an `aiResponse`: the decoded record
  and the error. -/
structure World (Img Client Bytes : Type) where
  Join : String → String → String
  Create : String → error
  Encode : String → Img → error
  NewClient : String → String → Except String Client
  ReadFile : String → Bytes × error
  GenerateContent : Client → String → String → Bytes → List Candidate × error
  Unmarshal : String → aiResponse × error

/-! ## ai.go -/

/-- Source: the constant `aiPrompt` (ai.go). -/
def aiPrompt : String :=
  "Analyze this image and provide:\n1. A detailed description of what the image shows\n2. The type of image (e.g., diagram, chart, photograph, illustration, screenshot, table)\n3. A suggested caption for the image\n\nRespond in JSON format:\n\x7b\n  \"description\": \"detailed description\",\n  \"type\": \"image type\",\n  \"caption\": \"suggested caption\"\n\x7d"

/-- Source: `cleanJSONResponse` (ai.go). -/
def cleanJSONResponse (text : String) : String :=
  let cleaned := text
  let cleaned := TrimPrefix cleaned "```json\n"
  let cleaned := TrimPrefix cleaned "```\n"
  let cleaned := TrimSuffix cleaned "\n```"
  let cleaned := TrimSpace cleaned
  cleaned

section Pipeline

variable {Img Client Bytes : Type}

/-- Source: `parseAIResponse` (ai.go). -/
def parseAIResponse (w : World Img Client Bytes)
    (responseText imagePath : String) (pageNum imageNum : Int) : ImageAnalysis × error :=
  let cleanedText := cleanJSONResponse responseText
  match w.Unmarshal cleanedText with
  | (_, some _) =>
    ({ ImagePath := imagePath, PageNumber := pageNum, ImageNumber := imageNum,
       Description := cleanedText, Type_ := msgTypeUnknown, Caption := "" }, none)
  | (response, none) =>
    ({ ImagePath := imagePath, PageNumber := pageNum, ImageNumber := imageNum,
       Description := response.Description, Type_ := response.Type_,
       Caption := response.Caption }, none)

/-- The zero value `ImageAnalysis{}`. -/
def ImageAnalysis.zero : ImageAnalysis :=
  { ImagePath := "", PageNumber := 0, ImageNumber := 0, Description := "", Type_ := "",
    Caption := "" }

/-- Source: `extractResponseText` (ai.go), on the candidates of the response. -/
def extractResponseText (candidates : List Candidate) : String × error :=
  match candidates with
  | [] => ("", some "no response from AI model")
  | c :: _ =>
    match c.Content with
    | none => ("", some "no response from AI model")
    | some [] => ("", some "no response from AI model")
    | some parts => (String.join (parts.filter (fun t => t != "")), none)

/-- Source: `createVertexAIClient` (ai.go). -/
def createVertexAIClient (w : World Img Client Bytes)
    (projectID region : String) : Except String Client :=
  match w.NewClient projectID region with
  | .error err => .error (wrapError "failed to create Vertex AI client: " err)
  | .ok client => .ok client

/-- Source: `generateAIContent` (ai.go). -/
def generateAIContent (w : World Img Client Bytes)
    (client : Client) (model : String) (imageData : Bytes) : String × error :=
  match w.GenerateContent client model aiPrompt imageData with
  | (_, some err) => ("", some (wrapError "failed to generate content: " err))
  | (resp, none) => extractResponseText resp

/-- Source: `analyzeImageWithAI` (ai.go). -/
def analyzeImageWithAI (w : World Img Client Bytes)
    (imagePath : String) (pageNum imageNum : Int) (projectID region model : String) :
    ImageAnalysis × error :=
  match createVertexAIClient w projectID region with
  | .error err => (ImageAnalysis.zero, some err)
  | .ok client =>
    match w.ReadFile imagePath with
    | (_, some err) => (ImageAnalysis.zero, some (wrapError "failed to read image: " err))
    | (imageData, none) =>
      match generateAIContent w client model imageData with
      | (_, some err) => (ImageAnalysis.zero, some err)
      | (responseText, none) => parseAIResponse w responseText imagePath pageNum imageNum

/-! ## extractor.go -/

/-- Source: `createBasicAnalysis` (extractor.go). -/
def createBasicAnalysis (imagePath : String) (pageNum imageNum : Int)
    (description imageType : String) : ImageAnalysis :=
  { ImagePath := imagePath, PageNumber := pageNum, ImageNumber := imageNum,
    Description := description, Type_ := imageType, Caption := "" }

/-- Source: `processImage` (extractor.go); the warning printed to stderr when
the analysis fails is not modelled. -/
def processImage (w : World Img Client Bytes) (imagePath : String)
    (pageNum imageNum : Int) (projectID region model : String) (noAI : Bool)
    (_imageName : String) : ImageAnalysis :=
  if noAI then
    createBasicAnalysis imagePath pageNum imageNum msgAnalysisSkipped msgTypeImage
  else
    match analyzeImageWithAI w imagePath pageNum imageNum projectID region model with
    | (_, some _) =>
      createBasicAnalysis imagePath pageNum imageNum msgAnalysisUnavailable msgTypeUnknown
    | (analysis, none) => analysis

/-- Source: `saveImageFile` (extractor.go). -/
def saveImageFile (w : World Img Client Bytes) (imagePath : String) (img : Img) :
    error :=
  match w.Create imagePath with
  | some err => some (wrapError "failed to create image file: " err)
  | none =>
    match w.Encode imagePath img with
    | some err => some (wrapError "failed to encode image: " err)
    | none => none

/-- Source: `extractPageText` (extractor.go). -/
def extractPageText (doc : Document Img) (pageNum : Nat) : String × error :=
  match doc.Text pageNum with
  | (_, some err) =>
    ("", some (wrapError ("failed to extract text from page " ++ fmtInt (pageNum + 1) ++ ": ") err))
  | (text, none) => (text, none)

/-- The file name `fmt.Sprintf("page_%d_image_%d.png", page, seq)`. -/
def imageFileName (page seq : Int) : String :=
  "page_" ++ fmtInt page ++ "_image_" ++ fmtInt seq ++ ".png"

/-- Source: `extractPageImages` (extractor.go). -/
def extractPageImages (w : World Img Client Bytes) (doc : Document Img)
    (pageNum : Nat) (imageCounter : Int) (imagesDir projectID region model : String)
    (noAI : Bool) : List ImageAnalysis × Int × error :=
  let images : List ImageAnalysis := []
  match doc.Image pageNum with
  | (_, some _) => (images, imageCounter, none)
  | (none, none) => (images, imageCounter, none)
  | (some img, none) =>
    let imageCounter := imageCounter + 1
    let imageName := imageFileName (pageNum + 1) imageCounter
    let imagePath := w.Join imagesDir imageName
    match saveImageFile w imagePath img with
    | some err => ([], imageCounter, some err)
    | none =>
      let analysis :=
        processImage w imagePath (pageNum + 1) imageCounter projectID region model noAI imageName
      let images := images ++ [analysis]
      (images, imageCounter, none)

/-- The `for` loop of `processPages`: `remaining` is `doc.NumPage() - pageNum`,
the number of iterations still to run; `fullText`, `images` and `imageCounter`
are the loop's variables. The progress lines written to stderr are not
modelled. -/
def processPagesLoop (w : World Img Client Bytes) (doc : Document Img)
    (imagesDir projectID region model : String) (noAI : Bool) :
    Nat → Nat → String → List ImageAnalysis → Int → String × List ImageAnalysis × error
  | 0, _, fullText, images, _ => (fullText, images, none)
  | remaining + 1, pageNum, fullText, images, imageCounter =>
    match extractPageText doc pageNum with
    | (_, some err) => ("", [], some err)
    | (text, none) =>
      let fullText := fullText ++ text
      let fullText := fullText ++ "\n\n"
      match extractPageImages w doc pageNum imageCounter imagesDir projectID region model noAI with
      | (_, _, some err) => ("", [], some err)
      | (pageImages, counter, none) =>
        processPagesLoop w doc imagesDir projectID region model noAI remaining (pageNum + 1)
          fullText (images ++ pageImages) counter

/-- Source: `processPages` (extractor.go). -/
def processPages (w : World Img Client Bytes) (doc : Document Img)
    (imagesDir projectID region model : String) (noAI : Bool) :
    String × List ImageAnalysis × error :=
  processPagesLoop w doc imagesDir projectID region model noAI doc.NumPage 0 "" [] 0

end Pipeline

/-! ## markdown.go

A `*strings.Builder` argument is the string written so far; each writer
returns the builder's new content. -/

/-- Source: `shouldWriteImageType` (markdown.go). -/
def shouldWriteImageType (imageType : String) : Bool :=
  imageType != "" && imageType != msgTypeUnknown

/-- Source: `shouldWriteDescription` (markdown.go). -/
def shouldWriteDescription (description : String) : Bool :=
  description != "" && description != msgAnalysisSkipped &&
    description != msgAnalysisUnavailable

/-- Source: `shouldWriteCaption` (markdown.go). -/
def shouldWriteCaption (caption : String) : Bool :=
  caption != ""

/-- Source: `writeMarkdownHeader` (markdown.go). -/
def writeMarkdownHeader (md : String) (pdfName : String) : String :=
  md ++ ("# Extracted Content from " ++ pdfName ++ "\n\n")

/-- Source: `writeTextContent` (markdown.go). -/
def writeTextContent (md : String) (text : String) : String :=
  let md := md ++ "## Text Content\n\n"
  let md := md ++ text
  md ++ "\n\n"

/-- Source: `writeImageEntry` (markdown.go). -/
def writeImageEntry (md : String) (img : ImageAnalysis) : String :=
  let md := md ++ ("### Page " ++ fmtInt img.PageNumber ++ " - Image " ++
    fmtInt img.ImageNumber ++ "\n\n")
  let md := md ++ ("![" ++ img.Caption ++ "](" ++ img.ImagePath ++ ")\n\n")
  let md := if shouldWriteImageType img.Type_ then
    md ++ ("**Type:** " ++ img.Type_ ++ "\n\n") else md
  let md := if shouldWriteDescription img.Description then
    md ++ ("**Description:** " ++ img.Description ++ "\n\n") else md
  let md := if shouldWriteCaption img.Caption then
    md ++ ("**Caption:** " ++ img.Caption ++ "\n\n") else md
  md ++ "---\n\n"

/-- Source: `writeImagesSection` (markdown.go). -/
def writeImagesSection (md : String) (images : List ImageAnalysis) : String :=
  if images.length == 0 then md
  else
    let md := md ++ "## Images\n\n"
    images.foldl writeImageEntry md

/-- Source: `createMarkdownOutput` (markdown.go). -/
def createMarkdownOutput (text : String) (images : List ImageAnalysis) (pdfName : String) :
    String :=
  let md := ""
  let md := writeMarkdownHeader md pdfName
  let md := writeTextContent md text
  let md := writeImagesSection md images
  md

/-! ## The image block as the specification words it -/

/-- The image-link line of a block: caption as alt text, path as reference. -/
def imageLinkLine (img : ImageAnalysis) : String :=
  "![" ++ img.Caption ++ "](" ++ img.ImagePath ++ ")\n\n"

/-- The heading line that opens a block in markdown.go. -/
def headingLine (img : ImageAnalysis) : String :=
  "### Page " ++ fmtInt img.PageNumber ++ " - Image " ++ fmtInt img.ImageNumber ++ "\n\n"

/-- The block of an image as the specification lists its lines: the link
line, the Type line unless the type is empty or "unknown", the Description
line unless the description is empty or a sentinel, the Caption line unless
the caption is empty, the separator line. -/
def specImageBlock (img : ImageAnalysis) : String :=
  imageLinkLine img ++
  (if img.Type_ ≠ "" ∧ img.Type_ ≠ "unknown" then "**Type:** " ++ img.Type_ ++ "\n\n" else "") ++
  (if img.Description ≠ "" ∧ img.Description ≠ "AI analysis skipped" ∧
      img.Description ≠ "Image analysis unavailable"
    then "**Description:** " ++ img.Description ++ "\n\n" else "") ++
  (if img.Caption ≠ "" then "**Caption:** " ++ img.Caption ++ "\n\n" else "") ++
  "---\n\n"

/-! ## Notions of the specification about a document -/

/-- Page `i` yields a renderable image: `Image` returns a non-nil image and
no error. -/
def renderable {Img : Type} (doc : Document Img) (i : Nat) : Bool :=
  match doc.Image i with
  | (some _, none) => true
  | _ => false

/-- The 0-based indices of the pages with a renderable image, ascending. -/
def renderablePages {Img : Type} (doc : Document Img) : List Nat :=
  (List.range doc.NumPage).filter (renderable doc)

/-- The document-wide sequence number of the image of page `i`: the number of
pages among `0, ..., i` with a renderable image. -/
def seqNumber {Img : Type} (doc : Document Img) (i : Nat) : Int :=
  (((List.range (i + 1)).filter (renderable doc)).length : Int)

/-- The path at which the image of page `i` is persisted. -/
def pageImagePath {Img Client Bytes : Type} (w : World Img Client Bytes) (doc : Document Img)
    (imagesDir : String) (i : Nat) : String :=
  w.Join imagesDir (imageFileName (i + 1) (seqNumber doc i))

/-- Page `i` is fatal for the run: its text cannot be extracted, or it has a
renderable image whose persistence fails. -/
def pageFails {Img Client Bytes : Type} (w : World Img Client Bytes) (doc : Document Img)
    (imagesDir : String) (i : Nat) : Prop :=
  (doc.Text i).2 ≠ none ∨
  ∃ img, doc.Image i = (some img, none) ∧
    saveImageFile w (pageImagePath w doc imagesDir i) img ≠ none

/-! ## Sample worlds and documents -/

/-- The JSON text of the sample answer. -/
def sampleJSON : String :=
  "\x7b\"description\": \"A cat\", \"type\": \"photograph\", \"caption\": \"A cat sitting\"\x7d"

/-- A world in which every call succeeds; the service answers with the sample
JSON text inside a fence, in three parts, and `Unmarshal` decodes that text. -/
def sampleWorld : World Unit Unit Unit where
  Join := fun dir name => dir ++ "/" ++ name
  Create := fun _ => none
  Encode := fun _ _ => none
  NewClient := fun _ _ => .ok ()
  ReadFile := fun _ => ((), none)
  GenerateContent := fun _ _ _ _ =>
    ([{ Content := some ["```json\n", sampleJSON, "\n```"] }], none)
  Unmarshal := fun s =>
    if s = sampleJSON then
      ({ Description := "A cat", Type_ := "photograph", Caption := "A cat sitting" }, none)
    else ({ Description := "", Type_ := "", Caption := "" }, some "invalid character")

/-- The world `sampleWorld` with a service that cannot be reached. -/
def offlineWorld : World Unit Unit Unit :=
  { sampleWorld with NewClient := fun _ _ => .error "no credentials" }

/-- The world `sampleWorld` with a disk on which no file can be created. -/
def readOnlyWorld : World Unit Unit Unit :=
  { sampleWorld with Create := fun _ => some "read-only file system" }

/-- Three pages: pages 0 and 2 have an image, page 1 has none. -/
def sampleDoc : Document Unit where
  NumPage := 3
  Text := fun i => if i = 0 then ("Hello", none) else ("World", none)
  Image := fun i => if i = 1 then (none, none) else (some (), none)

/-- One page with the text "Hello" and no image. -/
def helloDoc : Document Unit where
  NumPage := 1
  Text := fun _ => ("Hello", none)
  Image := fun _ => (none, none)

/-! # Theorems -/

/-! ## Markdown assembly -/

theorem shouldWriteImageType_iff (t : String) :
    shouldWriteImageType t = true ↔ t ≠ "" ∧ t ≠ "unknown" := by
  simp [shouldWriteImageType, msgTypeUnknown]

theorem shouldWriteDescription_iff (d : String) :
    shouldWriteDescription d = true ↔
      d ≠ "" ∧ d ≠ "AI analysis skipped" ∧ d ≠ "Image analysis unavailable" := by
  simp [shouldWriteDescription, msgAnalysisSkipped, msgAnalysisUnavailable, and_assoc]

theorem shouldWriteCaption_iff (c : String) : shouldWriteCaption c = true ↔ c ≠ "" := by
  simp [shouldWriteCaption]

/-- What `writeImageEntry` appends to the builder: the heading line, then the
block of the specification. -/
theorem writeImageEntry_eq (md : String) (img : ImageAnalysis) :
    writeImageEntry md img = md ++ (headingLine img ++ specImageBlock img) := by
  unfold writeImageEntry specImageBlock headingLine imageLinkLine
  simp only [shouldWriteImageType_iff, shouldWriteDescription_iff, shouldWriteCaption_iff]
  split_ifs <;> simp [String.append_assoc]

theorem foldl_writeImageEntry (images : List ImageAnalysis) (md : String) :
    images.foldl writeImageEntry md = md ++ String.join (images.map (writeImageEntry "")) := by
  induction images generalizing md with
  | nil => simp [String.join]
  | cons img rest ih =>
    rw [List.foldl_cons, ih, writeImageEntry_eq md, List.map_cons, writeImageEntry_eq ""]
    simp [String.join_eq, String.ext_iff, String.data_append]

/-- C4 (as amended): the block `writeImageEntry` appends for an image is, in
this order, the heading line "### Page p - Image n", the image-link line with
the caption as alt text, a Type line exactly when the type is neither empty
nor "unknown", a Description line exactly when the description is neither
empty nor one of the two sentinels, a Caption line exactly when the caption
is not empty, and the separator line. -/
theorem writeImageEntry_block (md : String) (img : ImageAnalysis) :
    writeImageEntry md img =
      md ++
      ("### Page " ++ fmtInt img.PageNumber ++ " - Image " ++ fmtInt img.ImageNumber ++ "\n\n") ++
      ("![" ++ img.Caption ++ "](" ++ img.ImagePath ++ ")\n\n") ++
      (if img.Type_ ≠ "" ∧ img.Type_ ≠ "unknown"
        then "**Type:** " ++ img.Type_ ++ "\n\n" else "") ++
      (if img.Description ≠ "" ∧ img.Description ≠ "AI analysis skipped" ∧
          img.Description ≠ "Image analysis unavailable"
        then "**Description:** " ++ img.Description ++ "\n\n" else "") ++
      (if img.Caption ≠ "" then "**Caption:** " ++ img.Caption ++ "\n\n" else "") ++
      "---\n\n" := by
  rw [writeImageEntry_eq]
  simp [headingLine, specImageBlock, imageLinkLine, String.append_assoc]

/-- C4 (as stated) fails: for an image of type "diagram" on page 1 the block
written into an empty builder is not the block of the specification, which
has no heading line. -/
theorem writeImageEntry_block_counterexample :
    writeImageEntry ""
        { ImagePath := "images/page_1_image_1.png", PageNumber := 1, ImageNumber := 1,
          Description := "A cat", Type_ := "diagram", Caption := "A cat sitting" } ≠
      specImageBlock
        { ImagePath := "images/page_1_image_1.png", PageNumber := 1, ImageNumber := 1,
          Description := "A cat", Type_ := "diagram", Caption := "A cat sitting" } := by
  decide

/-- C5: the rendered document is the title line, the "Text Content" section
with the text verbatim, and, exactly when there is an image, the "Images"
heading followed by the blocks of `writeImageEntry` in list order; for no
image it is exactly the title and the text section. -/
theorem createMarkdownOutput_structure (text : String) (images : List ImageAnalysis)
    (pdfName : String) :
    createMarkdownOutput text images pdfName =
        ("# Extracted Content from " ++ pdfName ++ "\n\n") ++
        ("## Text Content\n\n" ++ text ++ "\n\n") ++
        (if images = [] then ""
          else "## Images\n\n" ++ String.join (images.map (writeImageEntry ""))) ∧
    createMarkdownOutput text [] pdfName =
        "# Extracted Content from " ++ pdfName ++ "\n\n## Text Content\n\n" ++ text ++ "\n\n" := by
  constructor
  · unfold createMarkdownOutput writeImagesSection writeTextContent writeMarkdownHeader
    cases images with
    | nil => simp [String.ext_iff, String.data_append]
    | cons img rest =>
      simp only [foldl_writeImageEntry]
      simp [String.ext_iff, String.data_append]
  · simp [createMarkdownOutput, writeImagesSection, writeTextContent, writeMarkdownHeader,
      String.ext_iff, String.data_append]

/-! ## Cleaning of the service's answer -/

theorem TrimPrefix_data (s p : String) :
    (TrimPrefix s p).data =
      if p.data.isPrefixOf s.data then s.data.drop p.data.length else s.data := by
  unfold TrimPrefix HasPrefix
  split_ifs <;> rfl

theorem TrimSuffix_data (s x : String) :
    (TrimSuffix s x).data =
      if x.data.isSuffixOf s.data then s.data.take (s.data.length - x.data.length)
      else s.data := by
  unfold TrimSuffix HasSuffix
  split_ifs <;> rfl

theorem TrimSpace_data (s : String) :
    (TrimSpace s).data = List.rdropWhile isSpace (s.data.dropWhile isSpace) := rfl

theorem dropWhile_rdropWhile_of_dropWhile_eq {α : Type} (p : α → Bool) (l : List α)
    (h : l.dropWhile p = l) : (l.rdropWhile p).dropWhile p = l.rdropWhile p := by
  cases l with
  | nil => simp
  | cons a t =>
    have hpa : p a = false := by
      by_contra hne
      have hpa : p a = true := by simpa using hne
      rw [List.dropWhile_cons_of_pos hpa] at h
      have hlen := (List.dropWhile_suffix (l := t) p).length_le
      rw [h] at hlen
      simp at hlen
    obtain ⟨r, hr⟩ := List.rdropWhile_prefix p (a :: t)
    cases hrd : List.rdropWhile p (a :: t) with
    | nil => simp
    | cons b u =>
      rw [hrd] at hr
      have hba : b = a := by
        have := List.head_eq_of_cons_eq hr
        exact this
      subst hba
      simp [List.dropWhile_cons, hpa]

/-- Trimming white space twice is trimming it once. -/
theorem TrimSpace_idem (s : String) : TrimSpace (TrimSpace s) = TrimSpace s := by
  apply String.ext
  rw [TrimSpace_data, TrimSpace_data]
  rw [dropWhile_rdropWhile_of_dropWhile_eq isSpace _ (List.dropWhile_idempotent _ _),
    List.rdropWhile_idempotent]

theorem TrimSpace_length_le (s : String) : (TrimSpace s).data.length ≤ s.data.length := by
  rw [TrimSpace_data]
  exact ((List.rdropWhile_prefix isSpace _).length_le).trans
    (List.dropWhile_suffix (l := s.data) isSpace).length_le

theorem TrimPrefix_of_not (s p : String) (h : HasPrefix s p = false) : TrimPrefix s p = s := by
  simp [TrimPrefix, h]

theorem TrimSuffix_of_not (s x : String) (h : HasSuffix s x = false) : TrimSuffix s x = s := by
  simp [TrimSuffix, h]

/-- The result of `cleanJSONResponse` has no white space around it. -/
theorem TrimSpace_cleanJSONResponse (t : String) :
    TrimSpace (cleanJSONResponse t) = cleanJSONResponse t := by
  unfold cleanJSONResponse
  exact TrimSpace_idem _

theorem cleanJSONResponse_of_no_fence (c : String)
    (h1 : HasPrefix c "```json\n" = false) (h2 : HasPrefix c "```\n" = false)
    (h3 : HasSuffix c "\n```" = false) : cleanJSONResponse c = TrimSpace c := by
  unfold cleanJSONResponse
  simp only [TrimPrefix_of_not c _ h1, TrimPrefix_of_not c _ h2, TrimSuffix_of_not c _ h3]

theorem cleanJSONResponse_plain_fence (body : String) :
    cleanJSONResponse ("```\n" ++ body ++ "\n```") = TrimSpace body := by
  have h1 : HasPrefix ("```\n" ++ body ++ "\n```") "```json\n" = false := by
    simp [HasPrefix, String.data_append, List.isPrefixOf]
  have h2 : TrimPrefix ("```\n" ++ body ++ "\n```") "```\n" = body ++ "\n```" := by
    apply String.ext
    simp [TrimPrefix_data, String.data_append, List.isPrefixOf]
  have h3 : TrimSuffix (body ++ "\n```") "\n```" = body := by
    apply String.ext
    simp [TrimSuffix_data, String.data_append]
  unfold cleanJSONResponse
  simp only [TrimPrefix_of_not _ _ h1, h2, h3]

theorem cleanJSONResponse_json_fence (body : String) (h : HasPrefix body "```\n" = false) :
    cleanJSONResponse ("```json\n" ++ body ++ "\n```") = TrimSpace body := by
  have h1 : TrimPrefix ("```json\n" ++ body ++ "\n```") "```json\n" = body ++ "\n```" := by
    apply String.ext
    simp [TrimPrefix_data, String.data_append, List.isPrefixOf]
  have h3 : TrimSuffix (body ++ "\n```") "\n```" = body := by
    apply String.ext
    simp [TrimSuffix_data, String.data_append]
  unfold cleanJSONResponse
  simp only [h1]
  by_cases h2 : HasPrefix (body ++ "\n```") "```\n" = true
  · -- only the body "```" is made to start with a fence line by the closing fence
    have hb : body = "```" := by
      apply String.ext
      rcases hd : body.data with _ | ⟨a, _ | ⟨b, _ | ⟨c, _ | ⟨d, r⟩⟩⟩⟩ <;>
        simp [HasPrefix, String.data_append, hd, List.isPrefixOf] at h h2 ⊢
      · exact ⟨h2.1.symm, h2.2.1.symm, h2.2.2.symm⟩
      · exact absurd h2 (by simpa using h)
    subst hb
    decide
  · have h2f : HasPrefix (body ++ "\n```") "```\n" = false := by simpa using h2
    simp only [TrimPrefix_of_not _ _ h2f, h3]

/-- A text in an untagged fence begins and ends with a backquote: trimming
white space leaves it as it is. -/
theorem TrimSpace_fenced (body : String) :
    TrimSpace ("```\n" ++ body ++ "\n```") = "```\n" ++ body ++ "\n```" := by
  apply String.ext
  rw [TrimSpace_data]
  have hd : ("```\n" ++ body ++ "\n```").data =
      '`' :: (['`', '`', '\n'] ++ body.data ++ ['\n', '`', '`']) ++ ['`'] := by
    simp [String.data_append]
  rw [hd, List.cons_append, List.dropWhile_cons_of_neg (by decide), ← List.cons_append,
    List.rdropWhile_concat_neg _ _ _ (by decide)]

/-- One cleaning removes one untagged fence: the doubly fenced body becomes
the singly fenced body, and that becomes the trimmed body. -/
theorem cleanJSONResponse_nested_fence (body : String) :
    cleanJSONResponse ("```\n" ++ ("```\n" ++ body ++ "\n```") ++ "\n```") =
        "```\n" ++ body ++ "\n```" ∧
    cleanJSONResponse (cleanJSONResponse ("```\n" ++ ("```\n" ++ body ++ "\n```") ++ "\n```")) =
        TrimSpace body := by
  have h1 : cleanJSONResponse ("```\n" ++ ("```\n" ++ body ++ "\n```") ++ "\n```") =
      "```\n" ++ body ++ "\n```" := by
    rw [cleanJSONResponse_plain_fence, TrimSpace_fenced]
  exact ⟨h1, by rw [h1, cleanJSONResponse_plain_fence]⟩

theorem TrimSpace_ne_fenced (body : String) :
    TrimSpace body ≠ "```\n" ++ body ++ "\n```" := by
  intro heq
  have hlen := TrimSpace_length_le body
  rw [heq] at hlen
  simp [String.data_append] at hlen
  omega

/-- C10 (as amended): a cleaned text has no white space around it; cleaning
it again changes nothing when it neither begins with a fence line (tagged
"json" or not) nor ends with a closing fence; and one cleaning removes one
layer of fencing, so a doubly fenced body is singly fenced after the first
cleaning and bare after the second, which differs from the first. -/
theorem cleanJSONResponse_twice (t body : String) :
    TrimSpace (cleanJSONResponse t) = cleanJSONResponse t ∧
    (HasPrefix (cleanJSONResponse t) "```json\n" = false ∧
      HasPrefix (cleanJSONResponse t) "```\n" = false ∧
      HasSuffix (cleanJSONResponse t) "\n```" = false →
      cleanJSONResponse (cleanJSONResponse t) = cleanJSONResponse t) ∧
    (cleanJSONResponse ("```\n" ++ ("```\n" ++ body ++ "\n```") ++ "\n```") =
        "```\n" ++ body ++ "\n```" ∧
      cleanJSONResponse
          (cleanJSONResponse ("```\n" ++ ("```\n" ++ body ++ "\n```") ++ "\n```")) =
        TrimSpace body ∧
      cleanJSONResponse
          (cleanJSONResponse ("```\n" ++ ("```\n" ++ body ++ "\n```") ++ "\n```")) ≠
        cleanJSONResponse ("```\n" ++ ("```\n" ++ body ++ "\n```") ++ "\n```")) := by
  refine ⟨TrimSpace_cleanJSONResponse t, ?_, ?_⟩
  · rintro ⟨h1, h2, h3⟩
    rw [cleanJSONResponse_of_no_fence _ h1 h2 h3, TrimSpace_cleanJSONResponse]
  · obtain ⟨h1, h2⟩ := cleanJSONResponse_nested_fence body
    exact ⟨h1, h2, by rw [h2, h1]; exact TrimSpace_ne_fenced body⟩

/-- C10 (as stated) fails on nested fences: the doubly fenced "x" is cleaned
to the singly fenced "x", and cleaning that again gives "x". -/
theorem cleanJSONResponse_nested_fence_counterexample :
    cleanJSONResponse "```\n```\nx\n```\n```" = "```\nx\n```" ∧
    cleanJSONResponse (cleanJSONResponse "```\n```\nx\n```\n```") = "x" ∧
    cleanJSONResponse (cleanJSONResponse "```\n```\nx\n```\n```") ≠
      cleanJSONResponse "```\n```\nx\n```\n```" := by
  decide

/-- C10 at concrete texts: "  x  " is cleaned to "x", which carries no fence,
so the second cleaning is the identity; the doubly fenced " y " is singly
fenced after one cleaning. -/
theorem cleanJSONResponse_twice_witness :
    cleanJSONResponse "  x  " = "x" ∧
    cleanJSONResponse (cleanJSONResponse "  x  ") = cleanJSONResponse "  x  " ∧
    cleanJSONResponse ("```\n" ++ ("```\n" ++ " y " ++ "\n```") ++ "\n```") =
      "```\n" ++ " y " ++ "\n```" :=
  ⟨by decide, (cleanJSONResponse_twice "  x  " " y ").2.1 (by decide),
    (cleanJSONResponse_twice "  x  " " y ").2.2.1⟩

/-- The closing fence of an answer is looked for before the white space is
trimmed: when a newline follows it, it is not found and stays in the cleaned
text, while the same answer without that newline is cleaned to its body. -/
theorem cleanJSONResponse_fence_before_newline :
    cleanJSONResponse "```json\nx\n```\n" = "x\n```" ∧
    cleanJSONResponse "```json\nx\n```" = "x" := by
  decide

/-- C7 (as amended): a body wrapped in an untagged fence is always cleaned to
the body without its surrounding white space; a body wrapped in a fence
tagged "json" is, provided the body does not itself begin with a fence line. -/
theorem cleanJSONResponse_strips_fence (body : String) :
    cleanJSONResponse ("```\n" ++ body ++ "\n```") = TrimSpace body ∧
    (HasPrefix body "```\n" = false →
      cleanJSONResponse ("```json\n" ++ body ++ "\n```") = TrimSpace body) :=
  ⟨cleanJSONResponse_plain_fence body, cleanJSONResponse_json_fence body⟩

/-- C7 at a concrete body: " x\n" in a fence tagged "json" is cleaned to "x". -/
theorem cleanJSONResponse_strips_fence_witness :
    HasPrefix " x\n" "```\n" = false ∧
    cleanJSONResponse ("```json\n" ++ " x\n" ++ "\n```") = "x" ∧
    cleanJSONResponse ("```json\n" ++ " x\n" ++ "\n```") = TrimSpace " x\n" :=
  ⟨by decide, by decide, (cleanJSONResponse_strips_fence " x\n").2 (by decide)⟩

/-- C7 (as stated) fails: a body that begins with a fence line, wrapped in a
fence tagged "json", loses that line of its own as well. -/
theorem cleanJSONResponse_strips_fence_counterexample :
    cleanJSONResponse ("```json\n" ++ "```\nx" ++ "\n```") = "x" ∧
    cleanJSONResponse ("```json\n" ++ "```\nx" ++ "\n```") ≠ TrimSpace "```\nx" := by
  decide

/-! ## Analysis of one image -/

section Analysis

variable {Img Client Bytes : Type} (w : World Img Client Bytes)

theorem parseAIResponse_fields (responseText imagePath : String) (pageNum imageNum : Int) :
    (parseAIResponse w responseText imagePath pageNum imageNum).2 = none ∧
    (parseAIResponse w responseText imagePath pageNum imageNum).1.ImagePath = imagePath ∧
    (parseAIResponse w responseText imagePath pageNum imageNum).1.PageNumber = pageNum ∧
    (parseAIResponse w responseText imagePath pageNum imageNum).1.ImageNumber = imageNum := by
  unfold parseAIResponse
  rcases hU : w.Unmarshal (cleanJSONResponse responseText) with ⟨response, _ | err⟩ <;>
    simp [hU]

/-- C6: `parseAIResponse` never returns an error and keeps the path and the
two numbers; when `json.Unmarshal` rejects the cleaned text the description
is that whole cleaned text, the type "unknown" and the caption empty; when it
accepts it, the three decoded fields are returned as they are. -/
theorem parseAIResponse_spec (responseText imagePath : String) (pageNum imageNum : Int) :
    (parseAIResponse w responseText imagePath pageNum imageNum).2 = none ∧
    (parseAIResponse w responseText imagePath pageNum imageNum).1.ImagePath = imagePath ∧
    (parseAIResponse w responseText imagePath pageNum imageNum).1.PageNumber = pageNum ∧
    (parseAIResponse w responseText imagePath pageNum imageNum).1.ImageNumber = imageNum ∧
    ((w.Unmarshal (cleanJSONResponse responseText)).2 ≠ none →
      (parseAIResponse w responseText imagePath pageNum imageNum).1.Description =
          cleanJSONResponse responseText ∧
      (parseAIResponse w responseText imagePath pageNum imageNum).1.Type_ = "unknown" ∧
      (parseAIResponse w responseText imagePath pageNum imageNum).1.Caption = "") ∧
    ((w.Unmarshal (cleanJSONResponse responseText)).2 = none →
      (parseAIResponse w responseText imagePath pageNum imageNum).1.Description =
          (w.Unmarshal (cleanJSONResponse responseText)).1.Description ∧
      (parseAIResponse w responseText imagePath pageNum imageNum).1.Type_ =
          (w.Unmarshal (cleanJSONResponse responseText)).1.Type_ ∧
      (parseAIResponse w responseText imagePath pageNum imageNum).1.Caption =
          (w.Unmarshal (cleanJSONResponse responseText)).1.Caption) := by
  unfold parseAIResponse
  rcases hU : w.Unmarshal (cleanJSONResponse responseText) with ⟨response, _ | err⟩ <;>
    simp [hU, msgTypeUnknown]

theorem analyzeImageWithAI_fields (imagePath : String) (pageNum imageNum : Int)
    (projectID region model : String)
    (h : (analyzeImageWithAI w imagePath pageNum imageNum projectID region model).2 = none) :
    (analyzeImageWithAI w imagePath pageNum imageNum projectID region model).1.ImagePath =
        imagePath ∧
    (analyzeImageWithAI w imagePath pageNum imageNum projectID region model).1.PageNumber =
        pageNum ∧
    (analyzeImageWithAI w imagePath pageNum imageNum projectID region model).1.ImageNumber =
        imageNum := by
  unfold analyzeImageWithAI at h ⊢
  cases hC : createVertexAIClient w projectID region with
  | error err => simp [hC] at h
  | ok client =>
    simp only [hC] at h ⊢
    rcases hR : w.ReadFile imagePath with ⟨imageData, _ | err⟩
    · simp only [hR] at h ⊢
      rcases hG : generateAIContent w client model imageData with ⟨responseText, _ | err⟩
      · simp only [hG] at h ⊢
        exact (parseAIResponse_fields w responseText imagePath pageNum imageNum).2
      · simp [hG] at h
    · simp [hR] at h

theorem processImage_noAI (imagePath : String) (pageNum imageNum : Int)
    (projectID region model imageName : String) :
    processImage w imagePath pageNum imageNum projectID region model true imageName =
      { ImagePath := imagePath, PageNumber := pageNum, ImageNumber := imageNum,
        Description := "AI analysis skipped", Type_ := "image", Caption := "" } := by
  simp [processImage, createBasicAnalysis, msgAnalysisSkipped, msgTypeImage]

theorem processImage_analysis_error (imagePath : String) (pageNum imageNum : Int)
    (projectID region model imageName : String)
    (h : (analyzeImageWithAI w imagePath pageNum imageNum projectID region model).2 ≠ none) :
    processImage w imagePath pageNum imageNum projectID region model false imageName =
      { ImagePath := imagePath, PageNumber := pageNum, ImageNumber := imageNum,
        Description := "Image analysis unavailable", Type_ := "unknown", Caption := "" } := by
  unfold processImage
  rcases hA : analyzeImageWithAI w imagePath pageNum imageNum projectID region model with
    ⟨analysis, _ | err⟩
  · simp [hA] at h
  · simp [hA, createBasicAnalysis, msgAnalysisUnavailable, msgTypeUnknown]

/-- Whatever the mode and the service do, `processImage` keeps the path, the
page number and the image number it is given. -/
theorem processImage_fields (imagePath : String) (pageNum imageNum : Int)
    (projectID region model : String) (noAI : Bool) (imageName : String) :
    (processImage w imagePath pageNum imageNum projectID region model noAI imageName).ImagePath =
        imagePath ∧
    (processImage w imagePath pageNum imageNum projectID region model noAI imageName).PageNumber =
        pageNum ∧
    (processImage w imagePath pageNum imageNum projectID region model noAI imageName).ImageNumber =
        imageNum := by
  cases noAI with
  | true => simp [processImage_noAI]
  | false =>
    by_cases h : (analyzeImageWithAI w imagePath pageNum imageNum projectID region model).2 = none
    · have hf := analyzeImageWithAI_fields w imagePath pageNum imageNum projectID region model h
      unfold processImage
      rcases hA : analyzeImageWithAI w imagePath pageNum imageNum projectID region model with
        ⟨analysis, _ | err⟩
      · simpa [hA] using hf
      · simp [hA] at h
    · simp [processImage_analysis_error w imagePath pageNum imageNum projectID region model
        imageName h]

end Analysis

/-! ## The page loop -/

section Loop

variable {Img Client Bytes : Type} (w : World Img Client Bytes) (doc : Document Img)
  (imagesDir projectID region model : String) (noAI : Bool)

theorem renderable_eq_true_iff (i : Nat) :
    renderable doc i = true ↔ ∃ img, doc.Image i = (some img, none) := by
  unfold renderable
  rcases hI : doc.Image i with ⟨_ | img, _ | err⟩ <;> simp

theorem extractPageImages_of_not_renderable (pageNum : Nat) (c : Int)
    (h : renderable doc pageNum = false) :
    extractPageImages w doc pageNum c imagesDir projectID region model noAI = ([], c, none) := by
  unfold renderable at h
  unfold extractPageImages
  rcases hI : doc.Image pageNum with ⟨_ | img, _ | err⟩ <;> simp [hI] at h ⊢

theorem extractPageImages_of_save_error (pageNum : Nat) (c : Int) (img : Img) (err : String)
    (hI : doc.Image pageNum = (some img, none))
    (hS : saveImageFile w (w.Join imagesDir (imageFileName (pageNum + 1) (c + 1))) img =
      some err) :
    extractPageImages w doc pageNum c imagesDir projectID region model noAI =
      ([], c + 1, some err) := by
  unfold extractPageImages
  simp [hI, hS]

theorem extractPageImages_of_saved (pageNum : Nat) (c : Int) (img : Img)
    (hI : doc.Image pageNum = (some img, none))
    (hS : saveImageFile w (w.Join imagesDir (imageFileName (pageNum + 1) (c + 1))) img = none) :
    extractPageImages w doc pageNum c imagesDir projectID region model noAI =
      ([processImage w (w.Join imagesDir (imageFileName (pageNum + 1) (c + 1))) (pageNum + 1)
          (c + 1) projectID region model noAI (imageFileName (pageNum + 1) (c + 1))],
        c + 1, none) := by
  unfold extractPageImages
  simp [hI, hS]

theorem extractPageText_of_error (pageNum : Nat) (h : (doc.Text pageNum).2 ≠ none) :
    ∃ err, extractPageText doc pageNum = ("", some err) := by
  unfold extractPageText
  rcases hT : doc.Text pageNum with ⟨text, _ | err⟩
  · simp [hT] at h
  · exact ⟨wrapError ("failed to extract text from page " ++ fmtInt (pageNum + 1) ++ ": ") err,
      by simp [hT]⟩

theorem extractPageText_of_ok (pageNum : Nat) (h : (doc.Text pageNum).2 = none) :
    extractPageText doc pageNum = ((doc.Text pageNum).1, none) := by
  unfold extractPageText
  rcases hT : doc.Text pageNum with ⟨text, _ | err⟩
  · simp [hT]
  · simp [hT] at h

/-- The four ways one iteration of the loop goes. -/
theorem processPagesLoop_succ (remaining pageNum : Nat) (fullText : String)
    (images : List ImageAnalysis) (c : Int) :
    ((doc.Text pageNum).2 ≠ none ∧
      ∃ err, processPagesLoop w doc imagesDir projectID region model noAI (remaining + 1) pageNum
        fullText images c = ("", [], some err)) ∨
    ((doc.Text pageNum).2 = none ∧ renderable doc pageNum = false ∧
      processPagesLoop w doc imagesDir projectID region model noAI (remaining + 1) pageNum
        fullText images c =
      processPagesLoop w doc imagesDir projectID region model noAI remaining (pageNum + 1)
        (fullText ++ ((doc.Text pageNum).1 ++ "\n\n")) images c) ∨
    ((doc.Text pageNum).2 = none ∧ renderable doc pageNum = true ∧
      ∃ img err, doc.Image pageNum = (some img, none) ∧
      saveImageFile w (w.Join imagesDir (imageFileName (pageNum + 1) (c + 1))) img = some err ∧
      processPagesLoop w doc imagesDir projectID region model noAI (remaining + 1) pageNum
        fullText images c = ("", [], some err)) ∨
    ((doc.Text pageNum).2 = none ∧ renderable doc pageNum = true ∧
      ∃ img, doc.Image pageNum = (some img, none) ∧
      saveImageFile w (w.Join imagesDir (imageFileName (pageNum + 1) (c + 1))) img = none ∧
      processPagesLoop w doc imagesDir projectID region model noAI (remaining + 1) pageNum
        fullText images c =
      processPagesLoop w doc imagesDir projectID region model noAI remaining (pageNum + 1)
        (fullText ++ ((doc.Text pageNum).1 ++ "\n\n"))
        (images ++ [processImage w (w.Join imagesDir (imageFileName (pageNum + 1) (c + 1)))
          (pageNum + 1) (c + 1) projectID region model noAI
          (imageFileName (pageNum + 1) (c + 1))]) (c + 1)) := by
  by_cases hT : (doc.Text pageNum).2 = none
  · have hText := extractPageText_of_ok doc pageNum hT
    cases hR : renderable doc pageNum with
    | false =>
      refine Or.inr (Or.inl ⟨hT, rfl, ?_⟩)
      have hE := extractPageImages_of_not_renderable w doc imagesDir projectID region model noAI
        pageNum c hR
      simp [processPagesLoop, hText, hE, String.append_assoc]
    | true =>
      obtain ⟨img, hI⟩ := (renderable_eq_true_iff doc pageNum).1 hR
      cases hS : saveImageFile w (w.Join imagesDir (imageFileName (pageNum + 1) (c + 1))) img with
      | some err =>
        refine Or.inr (Or.inr (Or.inl ⟨hT, rfl, img, err, hI, hS, ?_⟩))
        have hE := extractPageImages_of_save_error w doc imagesDir projectID region model noAI
          pageNum c img err hI hS
        simp [processPagesLoop, hText, hE]
      | none =>
        refine Or.inr (Or.inr (Or.inr ⟨hT, rfl, img, hI, hS, ?_⟩))
        have hE := extractPageImages_of_saved w doc imagesDir projectID region model noAI
          pageNum c img hI hS
        simp [processPagesLoop, hText, hE, String.append_assoc]
  · obtain ⟨err, hText⟩ := extractPageText_of_error doc pageNum hT
    exact Or.inl ⟨hT, err, by simp [processPagesLoop, hText]⟩

/-- A run that ends with an error returns the empty text and no image. -/
theorem processPagesLoop_error_shape (remaining : Nat) :
    ∀ (pageNum : Nat) (fullText : String) (images : List ImageAnalysis) (c : Int),
      (processPagesLoop w doc imagesDir projectID region model noAI remaining pageNum
        fullText images c).2.2 ≠ none →
      (processPagesLoop w doc imagesDir projectID region model noAI remaining pageNum
        fullText images c).1 = "" ∧
      (processPagesLoop w doc imagesDir projectID region model noAI remaining pageNum
        fullText images c).2.1 = [] := by
  induction remaining with
  | zero => intro pageNum fullText images c h; simp [processPagesLoop] at h
  | succ n ih =>
    intro pageNum fullText images c h
    rcases processPagesLoop_succ w doc imagesDir projectID region model noAI n pageNum fullText
      images c with ⟨_, err, hL⟩ | ⟨_, _, hL⟩ | ⟨_, _, img, err, _, _, hL⟩ | ⟨_, _, img, _, _, hL⟩
    · simp [hL]
    · rw [hL] at h ⊢; exact ih _ _ _ _ h
    · simp [hL]
    · rw [hL] at h ⊢; exact ih _ _ _ _ h

theorem seqNumber_succ_of_renderable (pageNum : Nat) (h : renderable doc pageNum = true) :
    seqNumber doc pageNum = (((List.range pageNum).filter (renderable doc)).length : Int) + 1 := by
  simp [seqNumber, List.range_succ, List.filter_append, h]

theorem filter_range_succ_of_not_renderable (pageNum : Nat)
    (h : renderable doc pageNum = false) :
    (List.range (pageNum + 1)).filter (renderable doc) =
      (List.range pageNum).filter (renderable doc) := by
  simp [List.range_succ, List.filter_append, h]

theorem filter_range_succ_of_renderable (pageNum : Nat) (h : renderable doc pageNum = true) :
    (List.range (pageNum + 1)).filter (renderable doc) =
      (List.range pageNum).filter (renderable doc) ++ [pageNum] := by
  simp [List.range_succ, List.filter_append, h]

/-- The loop ends with an error exactly when one of the pages still to be
processed is fatal, the counter being the number of images met so far. -/
theorem processPagesLoop_error_iff (remaining : Nat) :
    ∀ (pageNum : Nat) (fullText : String) (images : List ImageAnalysis) (c : Int),
      c = (((List.range pageNum).filter (renderable doc)).length : Int) →
      ((processPagesLoop w doc imagesDir projectID region model noAI remaining pageNum
          fullText images c).2.2 ≠ none ↔
        ∃ i, pageNum ≤ i ∧ i < pageNum + remaining ∧ pageFails w doc imagesDir i) := by
  induction remaining with
  | zero =>
    intro pageNum fullText images c _
    simp only [processPagesLoop, ne_eq, not_true_eq_false, false_iff]
    rintro ⟨i, h1, h2, _⟩
    omega
  | succ n ih =>
    intro pageNum fullText images c hc
    rcases processPagesLoop_succ w doc imagesDir projectID region model noAI n pageNum fullText
      images c with ⟨hT, err, hL⟩ | ⟨hT, hR, hL⟩ | ⟨hT, hR, img, err, hI, hS, hL⟩ |
        ⟨hT, hR, img, hI, hS, hL⟩
    · rw [hL]
      simp only [ne_eq, reduceCtorEq, not_false_eq_true, true_iff]
      exact ⟨pageNum, le_refl _, by omega, Or.inl hT⟩
    · rw [hL, ih (pageNum + 1) _ _ c
        (by rw [filter_range_succ_of_not_renderable doc pageNum hR]; exact hc)]
      constructor
      · rintro ⟨i, h1, h2, h3⟩
        exact ⟨i, by omega, by omega, h3⟩
      · rintro ⟨i, h1, h2, h3⟩
        rcases Nat.eq_or_lt_of_le h1 with heq | hlt
        · subst heq
          rcases h3 with h3 | ⟨img, hI, _⟩
          · exact absurd hT h3
          · have := (renderable_eq_true_iff doc pageNum).2 ⟨img, hI⟩
            rw [hR] at this
            exact absurd this (by decide)
        · exact ⟨i, by omega, by omega, h3⟩
    · rw [hL]
      simp only [ne_eq, reduceCtorEq, not_false_eq_true, true_iff]
      refine ⟨pageNum, le_refl _, by omega, Or.inr ⟨img, hI, ?_⟩⟩
      rw [pageImagePath, seqNumber_succ_of_renderable doc pageNum hR, ← hc, hS]
      simp
    · rw [hL, ih (pageNum + 1) _ _ (c + 1)
        (by rw [filter_range_succ_of_renderable doc pageNum hR, hc]; simp)]
      constructor
      · rintro ⟨i, h1, h2, h3⟩
        exact ⟨i, by omega, by omega, h3⟩
      · rintro ⟨i, h1, h2, h3⟩
        rcases Nat.eq_or_lt_of_le h1 with heq | hlt
        · subst heq
          rcases h3 with h3 | ⟨img2, hI2, hS2⟩
          · exact absurd hT h3
          · rw [hI] at hI2
            have himg : img = img2 := by simpa using hI2
            subst himg
            rw [pageImagePath, seqNumber_succ_of_renderable doc pageNum hR, ← hc, hS] at hS2
            exact absurd rfl hS2
        · exact ⟨i, by omega, by omega, h3⟩

theorem map_add_range'_one_succ (c : Int) (n : Nat) :
    (List.range' 1 (n + 1)).map (fun k : Nat => c + (k : Int)) =
      (c + 1) :: (List.range' 1 n).map (fun k : Nat => c + 1 + (k : Int)) := by
  have hshift : List.range' (1 + 1) n = (List.range' 1 n).map (fun k => 1 + k) :=
    (List.map_add_range' 1 1 n 1).symm
  rw [List.range'_succ, List.map_cons, hshift, List.map_map]
  refine congrArg₂ _ (by simp) (List.map_congr_left ?_)
  intro k _
  simp only [Function.comp_apply]
  push_cast
  ring

/-- A run of the loop that ends without an error: the text written, and the
entries appended, with their page numbers, image numbers, paths and, in no-AI
mode, their fixed description and type. -/
theorem processPagesLoop_ok (remaining : Nat) :
    ∀ (pageNum : Nat) (fullText : String) (images : List ImageAnalysis) (c : Int),
      (processPagesLoop w doc imagesDir projectID region model noAI remaining pageNum
        fullText images c).2.2 = none →
      ∃ new : List ImageAnalysis,
        processPagesLoop w doc imagesDir projectID region model noAI remaining pageNum
          fullText images c =
          (fullText ++ String.join ((List.range' pageNum remaining).map
              (fun i => (doc.Text i).1 ++ "\n\n")),
            images ++ new, none) ∧
        new.map (fun e => e.PageNumber) =
          ((List.range' pageNum remaining).filter (renderable doc)).map
            (fun i : Nat => (i : Int) + 1) ∧
        new.map (fun e => e.ImageNumber) =
          (List.range' 1 new.length).map (fun k : Nat => c + (k : Int)) ∧
        (∀ e ∈ new, e.ImagePath = w.Join imagesDir (imageFileName e.PageNumber e.ImageNumber)) ∧
        (noAI = true → ∀ e ∈ new,
          e.Description = "AI analysis skipped" ∧ e.Type_ = "image" ∧ e.Caption = "") := by
  induction remaining with
  | zero =>
    intro pageNum fullText images c _
    exact ⟨[], by simp [processPagesLoop, String.join], by simp⟩
  | succ n ih =>
    intro pageNum fullText images c h
    rcases processPagesLoop_succ w doc imagesDir projectID region model noAI n pageNum fullText
      images c with ⟨_, err, hL⟩ | ⟨_, hR, hL⟩ | ⟨_, _, img, err, _, _, hL⟩ |
        ⟨_, hR, img, _, _, hL⟩
    · simp [hL] at h
    · rw [hL] at h ⊢
      obtain ⟨new, h1, h2, h3, h4, h5⟩ := ih _ _ _ _ h
      refine ⟨new, ?_, ?_, h3, h4, h5⟩
      · rw [h1, List.range'_succ, List.map_cons]
        simp [String.join_eq, String.ext_iff, String.data_append]
      · rw [h2, List.range'_succ, List.filter_cons_of_neg (by simp [hR])]
    · simp [hL] at h
    · rw [hL] at h ⊢
      obtain ⟨new, h1, h2, h3, h4, h5⟩ := ih _ _ _ _ h
      have hf := processImage_fields w (w.Join imagesDir (imageFileName (pageNum + 1) (c + 1)))
        (pageNum + 1) (c + 1) projectID region model noAI (imageFileName (pageNum + 1) (c + 1))
      refine ⟨processImage w (w.Join imagesDir (imageFileName (pageNum + 1) (c + 1)))
        (pageNum + 1) (c + 1) projectID region model noAI
        (imageFileName (pageNum + 1) (c + 1)) :: new, ?_, ?_, ?_, ?_, ?_⟩
      · rw [h1, List.range'_succ, List.map_cons]
        simp [String.join_eq, String.ext_iff, String.data_append]
      · rw [List.map_cons, h2, List.range'_succ, List.filter_cons_of_pos (by simp [hR]),
          List.map_cons, hf.2.1]
      · rw [List.map_cons, h3, List.length_cons, map_add_range'_one_succ, hf.2.2]
      · intro e he
        rcases List.mem_cons.1 he with rfl | he
        · rw [hf.1, hf.2.1, hf.2.2]
        · exact h4 e he
      · intro hno e he
        rcases List.mem_cons.1 he with rfl | he
        · subst hno
          simp [processImage_noAI]
        · exact h5 hno e he

/-- A successful run of `processPages`, in closed form. -/
theorem processPages_ok
    (h : (processPages w doc imagesDir projectID region model noAI).2.2 = none) :
    (processPages w doc imagesDir projectID region model noAI).1 =
      String.join ((List.range doc.NumPage).map (fun i => (doc.Text i).1 ++ "\n\n")) ∧
    ((processPages w doc imagesDir projectID region model noAI).2.1).map
        (fun e => e.PageNumber) =
      (renderablePages doc).map (fun i : Nat => (i : Int) + 1) ∧
    ((processPages w doc imagesDir projectID region model noAI).2.1).map
        (fun e => e.ImageNumber) =
      (List.range' 1 (processPages w doc imagesDir projectID region model noAI).2.1.length).map
        (fun k : Nat => (k : Int)) ∧
    (∀ e ∈ (processPages w doc imagesDir projectID region model noAI).2.1,
      e.ImagePath = w.Join imagesDir (imageFileName e.PageNumber e.ImageNumber)) := by
  unfold processPages at h ⊢
  obtain ⟨new, h1, h2, h3, h4, _⟩ :=
    processPagesLoop_ok w doc imagesDir projectID region model noAI doc.NumPage 0 "" [] 0 h
  rw [h1]
  refine ⟨?_, ?_, ?_, ?_⟩
  · simp [List.range_eq_range']
  · simpa [renderablePages, List.range_eq_range'] using h2
  · simpa using h3
  · simpa using h4

theorem intercalate_go_append (sep : String) (l : List String) :
    ∀ acc : String, String.intercalate.go acc sep l ++ sep =
      acc ++ sep ++ String.join (l.map (fun t => t ++ sep)) := by
  induction l with
  | nil => intro acc; simp [String.intercalate.go, String.join]
  | cons a as ih =>
    intro acc
    rw [String.intercalate.go, ih]
    simp [String.join_eq, String.ext_iff, String.data_append]

/-- Joining with a separator and closing with one more separator is writing
every element followed by the separator. -/
theorem intercalate_append (sep : String) (l : List String) (hl : l ≠ []) :
    sep.intercalate l ++ sep = String.join (l.map (fun t => t ++ sep)) := by
  cases l with
  | nil => exact absurd rfl hl
  | cons a as =>
    rw [String.intercalate, intercalate_go_append]
    simp [String.join_eq, String.ext_iff, String.data_append]

/-- C1: on a successful run the images are, in order, one entry for each page
with a renderable image: there are as many entries as such pages, the k-th
entry (from 1) has image number k and the page number of the k-th such page,
the image numbers are 1, ..., I, page numbers and image numbers both increase
strictly along the list, and every entry comes from a page with a renderable
image. -/
theorem processPages_images
    (h : (processPages w doc imagesDir projectID region model noAI).2.2 = none) :
    (processPages w doc imagesDir projectID region model noAI).2.1.length =
        (renderablePages doc).length ∧
    (∀ (k : Nat)
        (hk : k < (processPages w doc imagesDir projectID region model noAI).2.1.length)
        (hk2 : k < (renderablePages doc).length),
      ((processPages w doc imagesDir projectID region model noAI).2.1.get ⟨k, hk⟩).ImageNumber =
          (k : Int) + 1 ∧
      ((processPages w doc imagesDir projectID region model noAI).2.1.get ⟨k, hk⟩).PageNumber =
          (((renderablePages doc).get ⟨k, hk2⟩ : Nat) : Int) + 1) ∧
    ((processPages w doc imagesDir projectID region model noAI).2.1).map
        (fun e => e.ImageNumber) =
      (List.range' 1 (renderablePages doc).length).map (fun k : Nat => (k : Int)) ∧
    ((processPages w doc imagesDir projectID region model noAI).2.1).Pairwise
      (fun a b => a.PageNumber < b.PageNumber ∧ a.ImageNumber < b.ImageNumber) ∧
    (∀ e ∈ (processPages w doc imagesDir projectID region model noAI).2.1,
      ∃ i, i < doc.NumPage ∧ renderable doc i = true ∧ e.PageNumber = (i : Int) + 1) := by
  obtain ⟨_, hP, hN, _⟩ := processPages_ok w doc imagesDir projectID region model noAI h
  generalize (processPages w doc imagesDir projectID region model noAI).2.1 = images at hP hN ⊢
  have hlen : images.length = (renderablePages doc).length := by
    simpa using congrArg List.length hP
  refine ⟨hlen, ?_, ?_, ?_, ?_⟩
  · intro k hk hk2
    constructor
    · have := congrArg (fun l => l[k]?) hN
      simpa [List.getElem?_map, List.getElem?_eq_getElem hk, List.getElem?_range' , hk,
        add_comm] using this
    · have := congrArg (fun l => l[k]?) hP
      simpa [List.getElem?_map, List.getElem?_eq_getElem hk, List.getElem?_eq_getElem hk2]
        using this
  · rw [hN, hlen]
  · apply List.Pairwise.and
    · have hs : ((renderablePages doc).map (fun i : Nat => (i : Int) + 1)).Pairwise (· < ·) := by
        rw [List.pairwise_map]
        exact ((List.pairwise_lt_range doc.NumPage).filter _).imp (by intro a b hab; omega)
      rw [← hP, List.pairwise_map] at hs
      exact hs
    · have hs : ((List.range' 1 images.length).map (fun k : Nat => (k : Int))).Pairwise
          (· < ·) := by
        rw [List.pairwise_map]
        exact (List.pairwise_lt_range' 1 images.length).imp (by intro a b hab; omega)
      rw [← hN, List.pairwise_map] at hs
      exact hs
  · intro e he
    have hmem : e.PageNumber ∈ images.map (fun e => e.PageNumber) :=
      List.mem_map.2 ⟨e, he, rfl⟩
    rw [hP] at hmem
    obtain ⟨i, hi, hie⟩ := List.mem_map.1 hmem
    rw [renderablePages, List.mem_filter, List.mem_range] at hi
    exact ⟨i, hi.1, hi.2, hie.symm⟩

/-- C1 on the three-page sample (images on pages 0 and 2): two entries, with
(page, image) numbers (1, 1) and (3, 2). -/
theorem processPages_images_witness :
    (processPages sampleWorld sampleDoc "out/images" "p" "r" "m" false).2.1.map
        (fun e => (e.PageNumber, e.ImageNumber)) = [(1, 1), (3, 2)] ∧
    (processPages sampleWorld sampleDoc "out/images" "p" "r" "m" false).2.1.length =
        (renderablePages sampleDoc).length :=
  ⟨by decide,
    (processPages_images sampleWorld sampleDoc "out/images" "p" "r" "m" false (by decide)).1⟩

/-- C9: on a successful run every entry's path is the images directory
joined with "page_<page number>_image_<image number>.png", for the entry's
own page number and image number. -/
theorem processPages_image_path
    (h : (processPages w doc imagesDir projectID region model noAI).2.2 = none) :
    ∀ e ∈ (processPages w doc imagesDir projectID region model noAI).2.1,
      e.ImagePath =
        w.Join imagesDir
          ("page_" ++ fmtInt e.PageNumber ++ "_image_" ++ fmtInt e.ImageNumber ++ ".png") := by
  intro e he
  exact (processPages_ok w doc imagesDir projectID region model noAI h).2.2.2 e he

/-- C9 on the three-page sample: the two files are page_1_image_1.png and
page_3_image_2.png under the images directory. -/
theorem processPages_image_path_witness :
    (processPages sampleWorld sampleDoc "out/images" "p" "r" "m" false).2.1.map
        (fun e => e.ImagePath) =
      ["out/images/page_1_image_1.png", "out/images/page_3_image_2.png"] ∧
    ∀ e ∈ (processPages sampleWorld sampleDoc "out/images" "p" "r" "m" false).2.1,
      e.ImagePath =
        sampleWorld.Join "out/images"
          ("page_" ++ fmtInt e.PageNumber ++ "_image_" ++ fmtInt e.ImageNumber ++ ".png") :=
  ⟨by decide,
    processPages_image_path sampleWorld sampleDoc "out/images" "p" "r" "m" false (by decide)⟩

/-- C2 (as amended): on a successful run the text is the pages' texts in
ascending page order, each followed by a blank line; for a document with at
least one page that is the texts joined with "\n\n" and closed by one more
"\n\n". -/
theorem processPages_text
    (h : (processPages w doc imagesDir projectID region model noAI).2.2 = none) :
    (processPages w doc imagesDir projectID region model noAI).1 =
      String.join ((List.range doc.NumPage).map (fun i => (doc.Text i).1 ++ "\n\n")) ∧
    (0 < doc.NumPage →
      (processPages w doc imagesDir projectID region model noAI).1 =
        "\n\n".intercalate ((List.range doc.NumPage).map (fun i => (doc.Text i).1)) ++ "\n\n") := by
  have h1 := (processPages_ok w doc imagesDir projectID region model noAI h).1
  refine ⟨h1, fun hP => ?_⟩
  rw [h1, intercalate_append "\n\n" _ (by
    intro hnil
    have := congrArg List.length hnil
    simp at this
    omega), List.map_map]
  rfl

/-- C2 on the one-page sample: the text "Hello" is returned as "Hello\n\n". -/
theorem processPages_text_witness :
    (processPages sampleWorld helloDoc "out/images" "p" "r" "m" false).1 = "Hello\n\n" ∧
    (processPages sampleWorld sampleDoc "out/images" "p" "r" "m" false).1 =
      "\n\n".intercalate ["Hello", "World", "World"] ++ "\n\n" :=
  ⟨by decide,
    ((processPages_text sampleWorld sampleDoc "out/images" "p" "r" "m" false (by decide)).2
      (by decide)).trans (by decide)⟩

/-- C2 (as stated) fails: the one-page document with the text "Hello" is
processed without an error and its text is not "Hello", the one-element list
joined with "\n\n". -/
theorem processPages_text_counterexample :
    (processPages sampleWorld helloDoc "out/images" "p" "r" "m" false).2.2 = none ∧
    (processPages sampleWorld helloDoc "out/images" "p" "r" "m" false).1 ≠
      "\n\n".intercalate ((List.range helloDoc.NumPage).map (fun i => (helloDoc.Text i).1)) ∧
    (processPages sampleWorld helloDoc "out/images" "p" "r" "m" false).1 ≠ "Hello" := by
  decide

/-- C3: `processPages` returns an error exactly when some page's text cannot
be extracted or some page has a renderable image whose persistence fails; an
error comes with the empty text and no image; and when every text is
extracted and every image is persisted there is no error, whatever `Image`
and the analysis do. -/
theorem processPages_error_iff :
    ((processPages w doc imagesDir projectID region model noAI).2.2 ≠ none ↔
      ∃ i, i < doc.NumPage ∧
        ((doc.Text i).2 ≠ none ∨
          ∃ img, doc.Image i = (some img, none) ∧
            saveImageFile w (pageImagePath w doc imagesDir i) img ≠ none)) ∧
    ((processPages w doc imagesDir projectID region model noAI).2.2 ≠ none →
      (processPages w doc imagesDir projectID region model noAI).1 = "" ∧
      (processPages w doc imagesDir projectID region model noAI).2.1 = []) ∧
    ((∀ i, i < doc.NumPage → (doc.Text i).2 = none) →
      (∀ path img, saveImageFile w path img = none) →
      (processPages w doc imagesDir projectID region model noAI).2.2 = none) := by
  have hiff := processPagesLoop_error_iff w doc imagesDir projectID region model noAI
    doc.NumPage 0 "" [] 0 (by simp)
  have hiff2 : (processPages w doc imagesDir projectID region model noAI).2.2 ≠ none ↔
      ∃ i, i < doc.NumPage ∧ pageFails w doc imagesDir i := by
    unfold processPages
    rw [hiff]
    constructor
    · rintro ⟨i, _, h2, h3⟩
      exact ⟨i, by omega, h3⟩
    · rintro ⟨i, h2, h3⟩
      exact ⟨i, Nat.zero_le _, by omega, h3⟩
  refine ⟨hiff2, ?_, ?_⟩
  · exact processPagesLoop_error_shape w doc imagesDir projectID region model noAI
      doc.NumPage 0 "" [] 0
  · intro hT hS
    by_contra hne
    obtain ⟨i, hi, hf⟩ := hiff2.1 hne
    rcases hf with hf | ⟨img, _, hf⟩
    · exact hf (hT i hi)
    · exact hf (hS _ img)

/-- C3 on the samples: on a disk where no file can be created the run fails
with the empty text and no image; with an unreachable service it succeeds. -/
theorem processPages_error_iff_witness :
    processPages readOnlyWorld sampleDoc "out/images" "p" "r" "m" false =
        ("", [], some "failed to create image file: read-only file system") ∧
    (processPages offlineWorld sampleDoc "out/images" "p" "r" "m" false).2.2 = none ∧
    (processPages readOnlyWorld sampleDoc "out/images" "p" "r" "m" false).1 = "" :=
  ⟨by decide, by decide,
    ((processPages_error_iff readOnlyWorld sampleDoc "out/images" "p" "r" "m" false).2.1
      (by decide)).1⟩

/-- C8: `processImage` always returns a record; with AI disabled it is the
record "AI analysis skipped" of type "image" with an empty caption; with AI
enabled and a failed analysis call it is the record "Image analysis
unavailable" of type "unknown" with an empty caption; both keep the path and
the two numbers; and with AI disabled every image of `processPages` has the
description "AI analysis skipped" and the type "image". -/
theorem processImage_fallbacks (imagePath : String) (pageNum imageNum : Int)
    (imageName : String) :
    processImage w imagePath pageNum imageNum projectID region model true imageName =
      { ImagePath := imagePath, PageNumber := pageNum, ImageNumber := imageNum,
        Description := "AI analysis skipped", Type_ := "image", Caption := "" } ∧
    ((analyzeImageWithAI w imagePath pageNum imageNum projectID region model).2 ≠ none →
      processImage w imagePath pageNum imageNum projectID region model false imageName =
        { ImagePath := imagePath, PageNumber := pageNum, ImageNumber := imageNum,
          Description := "Image analysis unavailable", Type_ := "unknown", Caption := "" }) ∧
    (∀ e ∈ (processPages w doc imagesDir projectID region model true).2.1,
      e.Description = "AI analysis skipped" ∧ e.Type_ = "image") := by
  refine ⟨processImage_noAI w _ _ _ _ _ _ _, processImage_analysis_error w _ _ _ _ _ _ _, ?_⟩
  intro e he
  by_cases h : (processPages w doc imagesDir projectID region model true).2.2 = none
  · unfold processPages at h he
    obtain ⟨new, h1, _, _, _, h5⟩ :=
      processPagesLoop_ok w doc imagesDir projectID region model true doc.NumPage 0 "" [] 0 h
    rw [h1] at he
    have := h5 rfl e (by simpa using he)
    exact ⟨this.1, this.2.1⟩
  · have := (processPagesLoop_error_shape w doc imagesDir projectID region model true
      doc.NumPage 0 "" [] 0 h).2
    unfold processPages at he
    rw [this] at he
    exact absurd he (List.not_mem_nil _)

/-- C8 on the samples: with an unreachable service and AI enabled, the image
of page 1 gets the record "Image analysis unavailable". -/
theorem processImage_fallbacks_witness :
    processImage offlineWorld "out/images/page_1_image_1.png" 1 1 "p" "r" "m" false
        "page_1_image_1.png" =
      { ImagePath := "out/images/page_1_image_1.png", PageNumber := 1, ImageNumber := 1,
        Description := "Image analysis unavailable", Type_ := "unknown", Caption := "" } :=
  (processImage_fallbacks offlineWorld sampleDoc "out/images" "p" "r" "m"
    "out/images/page_1_image_1.png" 1 1 "page_1_image_1.png").2.1 (by decide)

end Loop

end PdfExtractor
